import Mathlib

/-!
Shallow embedding of the pdf-merger pipeline core: the reconciliation engine
(`src/logic/reconciler.py`), the storage layer (`src/core/database.py`) and the
pipeline orchestrator (`src/core/pipeline.py`).  Python strings are Lean
`String`s with the string primitives implemented structurally over `List Char`
(so that every definition evaluates by kernel reduction), SQL REAL quantities
are exact fractions (`Qty`, an idealization of Python floats as rationals
represented without normalization), Python dicts are association lists
preserving insertion order, and external collaborators (extraction, fuzzy
matching, the physical filesystem) are explicit oracle parameters.
-/

namespace PdfMerger

/-! ### Quantities: Python floats idealized as exact fractions -/

/-- A quantity: `num / den` as an unnormalized fraction.  All quantities built
by the embedding have positive denominators. -/
structure Qty where
  num : Int
  den : Nat
deriving DecidableEq

instance (n : Nat) : OfNat Qty n := ⟨⟨(n : Int), 1⟩⟩

/-- Exact addition of fractions (no normalization, so it reduces in the kernel). -/
def Qty.add (a b : Qty) : Qty := ⟨a.num * b.den + b.num * a.den, a.den * b.den⟩

instance : Add Qty := ⟨Qty.add⟩

/-- Exact `<` on fractions by cross-multiplication (denominators positive). -/
def Qty.blt (a b : Qty) : Bool := decide (a.num * b.den < b.num * a.den)

/-! ### Python string primitives (structural, over `List Char`) -/

/-- Python `str.strip()`. -/
def pyTrim (s : String) : String :=
  String.mk (((s.toList.dropWhile Char.isWhitespace).reverse.dropWhile
    Char.isWhitespace).reverse)

/-- Python `str.upper()` (ASCII). -/
def pyUpper (s : String) : String := String.mk (s.toList.map Char.toUpper)

/-- Python `str.lower()` (ASCII). -/
def pyLower (s : String) : String := String.mk (s.toList.map Char.toLower)

/-- Python `str.isdigit` restricted to ASCII: non-empty and all characters digits. -/
def pyIsdigit (s : String) : Bool :=
  !s.toList.isEmpty && s.toList.all Char.isDigit

/-- `s.split(sep)[0]` for a one-character separator: the prefix before the first
occurrence of `sep` (the whole string when `sep` is absent). -/
def splitHead (sep : Char) (s : String) : String :=
  String.mk (s.toList.takeWhile (fun c => c != sep))

/-- Python `sep in s` for a one-character needle. -/
def pyHasChar (s : String) (c : Char) : Bool := s.toList.contains c

/-- Membership of `pat` as a contiguous sublist (Python `sub in s` on the char level). -/
def subOf (pat : List Char) : List Char → Bool
  | [] => pat.isEmpty
  | c :: rest => pat.isPrefixOf (c :: rest) || subOf pat rest

/-- Python `sub in s` substring test. -/
def pyIn (sub s : String) : Bool := subOf sub.toList s.toList

/-- Python truthiness of an optional string (`None` and `""` are falsy). -/
def optTruthy : Option String → Bool
  | none => false
  | some s => !(s == "")

/-- Python `str(x)` for an optional string column (`None` prints as `"None"`). -/
def pyStrOfOpt : Option String → String
  | none => "None"
  | some s => s

/-- The first maximal digit run in a character list (regex `(\d+)` search). -/
def firstDigitRun : List Char → Option String
  | [] => none
  | c :: rest =>
    if c.isDigit then some (String.mk (c :: rest.takeWhile Char.isDigit))
    else firstDigitRun rest

/-! ### `Reconciler._normalize_key` -/

/-- The body of `Reconciler._normalize_key` after the empty check and the
strip/upper-case normalization of the raw ref: the string itself if purely
numeric, else the (re-stripped) prefix before `-` or before `.` when that prefix
is numeric, else the first digit run, else the string itself. -/
def normalizeCore (s : String) : String :=
  if pyIsdigit s then s
  else if pyHasChar s '-' && pyIsdigit (pyTrim (splitHead '-' s)) then
    pyTrim (splitHead '-' s)
  else if pyHasChar s '.' && pyIsdigit (pyTrim (splitHead '.' s)) then
    pyTrim (splitHead '.' s)
  else
    match firstDigitRun s.toList with
    | some run => run
    | none => s

/-- `Reconciler._normalize_key` from `src/logic/reconciler.py`: empty refs map to
`"UNKNOWN"`; every other ref is first stripped and upper-cased and then reduced
by `normalizeCore`. -/
def normalizeKey (rawRef : String) : String :=
  if rawRef = "" then "UNKNOWN" else normalizeCore (pyUpper (pyTrim rawRef))

/-- Specification-side restatement of the core clauses, with the digit-run clause
written via `dropWhile`/`takeWhile` and an explicit digitless fallthrough. -/
def normalizeCoreSpec (s : String) : String :=
  if pyIsdigit s then s
  else if pyHasChar s '-' && pyIsdigit (pyTrim (splitHead '-' s)) then
    pyTrim (splitHead '-' s)
  else if pyHasChar s '.' && pyIsdigit (pyTrim (splitHead '.' s)) then
    pyTrim (splitHead '.' s)
  else if s.toList.any Char.isDigit then
    String.mk ((s.toList.dropWhile (fun c => !c.isDigit)).takeWhile Char.isDigit)
  else s

/-- Specification-side restatement of the whole key normalization, following the
spec's clause order (a)/(b)/(c): computed from the stripped upper-cased ref, with
digitless refs falling through as that stripped upper-cased form and the empty ref
mapping to `"UNKNOWN"`. -/
def normalizeKeySpec (rawRef : String) : String :=
  if rawRef = "" then "UNKNOWN" else normalizeCoreSpec (pyUpper (pyTrim rawRef))

/-! ### Insertion-ordered dictionaries (Python `dict` / `defaultdict`) -/

/-- Key lookup in an insertion-ordered association list. -/
def dictGet {α : Type} (d : List (String × α)) (k : String) : Option α :=
  (d.find? (fun p => p.1 == k)).map Prod.snd

/-- Key membership. -/
def dictHas {α : Type} (d : List (String × α)) (k : String) : Bool :=
  d.any (fun p => p.1 == k)

/-- `d[k] = v`: replaces in place (keeping insertion position) or appends. -/
def dictSet {α : Type} (d : List (String × α)) (k : String) (v : α) :
    List (String × α) :=
  if dictHas d k then d.map (fun p => if p.1 == k then (k, v) else p)
  else d ++ [(k, v)]

/-- `defaultdict(float)`-style `d[k] += q`. -/
def dictAdd (d : List (String × Qty)) (k : String) (q : Qty) : List (String × Qty) :=
  match dictGet d k with
  | some x => dictSet d k (x + q)
  | none => d ++ [(k, q)]

/-- `d.pop(k)`: removes the entry for `k`. -/
def dictPop {α : Type} (d : List (String × α)) (k : String) : List (String × α) :=
  d.filter (fun p => p.1 != k)

/-! ### Reconciliation engine (`Reconciler.reconcile_po`) -/

/-- A row of the `line_items` table as consumed by `reconcile_po`. -/
structure RecItem where
  docType : String
  lineRef : Option String
  quantity : Option Qty
  description : Option String
deriving DecidableEq

/-- An unmatched order-ledger line offered to the fuzzy-matching collaborator. -/
structure UnmatchedPoLine where
  ref : String
  desc : Option String
  qty : Qty
deriving DecidableEq

/-- A delivery/invoice orphan offered to the fuzzy-matching collaborator. -/
structure OrphanCand where
  typ : String
  ref : String
  qty : Qty
deriving DecidableEq

/-- One proposed match from the fuzzy-matching collaborator. -/
structure MatchProp where
  poLineRef : String
  docLineRef : String
  confidence : String
deriving DecidableEq

/-- The fuzzy-matching collaborator (`smart_reconcile_items`), treated as an oracle. -/
abbrev Matcher := List UnmatchedPoLine → List OrphanCand → List MatchProp

/-- Role tag assigned during the separation step of `reconcile_po`
(substring tests on the lower-cased `doc_type`). -/
def roleOf (dt : String) : String :=
  let d := pyLower dt
  if pyIn "purchase" d || pyIn "po" d then "po"
  else if pyIn "delivery" d || pyIn "do" d then "dn"
  else if pyIn "invoice" d || pyIn "si" d then "si"
  else "unknown"

/-- `str(item.get('line_ref', ''))` then `_normalize_key`. -/
def itemKey (it : RecItem) : String := normalizeKey (pyStrOfOpt it.lineRef)

/-- `float(item.get('quantity', 0.0))` with the `except` fallback to `0.0`. -/
def itemQty (it : RecItem) : Qty := it.quantity.getD 0

/-- The three per-role ledgers plus which roles were seen, as built by the
separation pass and passes 1 and 2 of `reconcile_po`. -/
structure Ledgers where
  po : List (String × Qty × Option String)
  dn : List (String × Qty)
  si : List (String × Qty)
  seenPo : Bool
  seenDn : Bool
  seenSi : Bool
deriving DecidableEq

/-- Separation plus pass 1 (order ledger, one canonical row per key — last wins)
and pass 2 (delivery and invoice ledgers aggregated with `+=`). -/
def buildLedgers (items : List RecItem) : Ledgers :=
  let poItems := items.filter (fun it => roleOf it.docType == "po")
  let otherItems := items.filter (fun it => roleOf it.docType != "po")
  { po := poItems.foldl
      (fun d it => dictSet d (itemKey it) (itemQty it, it.description)) []
    dn := otherItems.foldl
      (fun d it => if roleOf it.docType == "dn" then dictAdd d (itemKey it) (itemQty it) else d) []
    si := otherItems.foldl
      (fun d it => if roleOf it.docType == "si" then dictAdd d (itemKey it) (itemQty it) else d) []
    seenPo := items.any (fun it => roleOf it.docType == "po")
    seenDn := otherItems.any (fun it => roleOf it.docType == "dn")
    seenSi := otherItems.any (fun it => roleOf it.docType == "si") }

/-- Order-ledger keys with zero presence in either other ledger. -/
def unmatchedPoLines (L : Ledgers) : List UnmatchedPoLine :=
  (L.po.filter (fun p => !dictHas L.dn p.1 && !dictHas L.si p.1)).map
    (fun p => ⟨p.1, p.2.2, p.2.1⟩)

/-- Invoice then delivery keys absent from the order ledger, in source order. -/
def orphanCands (L : Ledgers) : List OrphanCand :=
  (L.si.filter (fun p => !dictHas L.po p.1)).map (fun p => ⟨"invoice", p.1, p.2⟩) ++
  (L.dn.filter (fun p => !dictHas L.po p.1)).map (fun p => ⟨"delivery", p.1, p.2⟩)

/-- Applying one proposed match: a high-confidence match onto a known order-ledger
key moves the orphan's aggregated quantity (invoice ledger first, then delivery). -/
def applyMatch (L : Ledgers) (acc : List (String × Qty) × List (String × Qty))
    (m : MatchProp) : List (String × Qty) × List (String × Qty) :=
  let (dl, sl) := acc
  if m.confidence == "high" && dictHas L.po m.poLineRef then
    let sl' := if dictHas sl m.docLineRef then
        dictAdd (dictPop sl m.docLineRef) m.poLineRef ((dictGet sl m.docLineRef).getD 0)
      else sl
    let dl' := if dictHas dl m.docLineRef then
        dictAdd (dictPop dl m.docLineRef) m.poLineRef ((dictGet dl m.docLineRef).getD 0)
      else dl
    (dl', sl')
  else (dl, sl)

/-- The orphan-reconciliation step: when both unmatched order lines and orphans
exist, the collaborator is consulted and each proposed match applied in order;
otherwise the ledgers pass through unchanged. -/
def orphanFix (matcher : Matcher) (L : Ledgers) :
    List (String × Qty) × List (String × Qty) :=
  let up := unmatchedPoLines L
  let oc := orphanCands L
  if !up.isEmpty && !oc.isEmpty then
    (matcher up oc).foldl (applyMatch L) (L.dn, L.si)
  else (L.dn, L.si)

/-- One line of the reconciliation report. -/
structure ReportLine where
  line : String
  status : String
  ordered : Qty
  received : Qty
  invoiced : Qty
  desc : Option String
deriving DecidableEq

/-- Accumulator of the 3-way comparison loop. -/
structure CompareOut where
  status : String
  report : List ReportLine
  matched : Nat
deriving DecidableEq

/-- The `line_status` value after both checks of one loop iteration. -/
def lineStatusOf (ordered received invoiced : Qty) : String :=
  let s1 := if Qty.blt received ordered then "PARTIAL_DELIVERY"
    else if Qty.blt ordered received then "OVER_DELIVERY" else "OK"
  if Qty.blt invoiced received then "PARTIAL_INVOICE"
  else if Qty.blt received invoiced then "OVER_INVOICED" else s1

/-- The `universe_status` value after both checks of one loop iteration: each
firing check overwrites the running status. -/
def univAfterLine (u : String) (ordered received invoiced : Qty) : String :=
  let u1 := if Qty.blt received ordered then "INCOMPLETE"
    else if Qty.blt ordered received then "ATTENTION" else u
  if Qty.blt invoiced received then "INVOICE_PENDING"
  else if Qty.blt received invoiced then "ATTENTION" else u1

/-- One iteration of the comparison loop over the order ledger. -/
def compareStep (dl sl : List (String × Qty)) (acc : CompareOut)
    (e : String × Qty × Option String) : CompareOut :=
  let ordered := e.2.1
  let received := (dictGet dl e.1).getD 0
  let invoiced := (dictGet sl e.1).getD 0
  { status := univAfterLine acc.status ordered received invoiced
    report := acc.report ++
      [⟨e.1, lineStatusOf ordered received invoiced, ordered, received, invoiced, e.2.2⟩]
    matched := acc.matched + (if Qty.blt 0 received || Qty.blt 0 invoiced then 1 else 0) }

/-- The comparison loop over the order ledger. -/
def compareLedgers (po : List (String × Qty × Option String))
    (dl sl : List (String × Qty)) : CompareOut :=
  po.foldl (compareStep dl sl) ⟨"MATCH", [], 0⟩

/-- The dictionary returned by `reconcile_po`. -/
structure ReconResult where
  overallStatus : String
  details : Option String
  lineItems : List ReportLine
deriving DecidableEq

/-- `Reconciler.reconcile_po` on the line items fetched for one order id, with the
fuzzy-matching collaborator as an oracle. -/
def reconcilePo (items : List RecItem) (matcher : Matcher) : ReconResult :=
  if items.isEmpty then ⟨"PO_DATA_MISSING", none, []⟩
  else
    let L := buildLedgers items
    if !(L.seenPo && L.seenDn && L.seenSi) then
      ⟨"WAITING_FOR_DOCS", some "Missing Documents", []⟩
    else
      let ds := orphanFix matcher L
      let c := compareLedgers L.po ds.1 ds.2
      if decide (0 < L.po.length) && c.matched == 0 then
        ⟨"MISMATCH", some "Zero lines matched.", []⟩
      else
        match ds.2.find? (fun p => !dictHas L.po p.1) with
        | some p => ⟨"MISMATCH", some ("Invoice contains extra line " ++ p.1), []⟩
        | none => ⟨c.status, none, c.report⟩

/-! ### Storage layer (`DatabaseManager`) -/

/-- One row of the `files` table. -/
structure FileRec where
  path : String
  filename : String
  contentHash : Option String
  docType : String
  poNumber : Option String
  status : String
  errorMessage : Option String
deriving DecidableEq

/-- One row of the `line_items` table. -/
structure DbRow where
  poNumber : Option String
  docType : String
  sourceFile : String
  lineRef : Option String
  description : Option String
  partNo : Option String
  quantity : Option Qty
deriving DecidableEq

/-- The persistent database state: the `files` and `line_items` tables in
row order. -/
structure DbState where
  files : List FileRec
  rows : List DbRow
deriving DecidableEq

/-- `SELECT filename FROM files WHERE content_hash = ?` (`NULL` never matches). -/
def lookupHash (db : DbState) (h : String) : Option FileRec :=
  db.files.find? (fun r => r.contentHash == some h)

/-- `SELECT ... FROM files WHERE file_path = ?`. -/
def lookupPath (db : DbState) (p : String) : Option FileRec :=
  db.files.find? (fun r => r.path == p)

/-- `DatabaseManager.register_file`: rejects when the hash already exists
(returning the existing filename), does nothing when the path already exists,
and otherwise inserts a new `PENDING` record. -/
def registerFile (db : DbState) (path filename docType hash : String) :
    DbState × Bool × Option String :=
  match lookupHash db hash with
  | some r => (db, false, some r.filename)
  | none =>
    match lookupPath db path with
    | some _ => (db, false, none)
    | none =>
      ({ db with files := db.files ++
          [⟨path, filename, some hash, docType, none, "PENDING", none⟩] },
       true, none)

/-- `DatabaseManager.get_pending_files`: `(file_path, doc_type, status)` for
records with status `PENDING` or `FAILED` — the retry queue. -/
def getPendingFiles (db : DbState) : List (String × String × String) :=
  (db.files.filter (fun r => r.status == "PENDING" || r.status == "FAILED")).map
    (fun r => (r.path, r.docType, r.status))

/-- `DatabaseManager.update_status`: partial update keyed by path; the optional
fields only overwrite when truthy (Python `if po_number:` etc.). -/
def updateStatus (db : DbState) (path status : String)
    (po err newType : Option String) : DbState :=
  { db with files := db.files.map (fun r =>
      if r.path == path then
        { r with
          status := status
          poNumber := if optTruthy po then po else r.poNumber
          errorMessage := if optTruthy err then err else r.errorMessage
          docType := if optTruthy newType then newType.getD r.docType else r.docType }
      else r) }

/-- `DatabaseManager.save_line_items`: bulk append, no dedup. -/
def saveLineItems (db : DbState) (items : List DbRow) : DbState :=
  { db with rows := db.rows ++ items }

/-- `DatabaseManager.get_line_item_count` keyed by `source_file`. -/
def getLineItemCount (db : DbState) (filename : String) : Nat :=
  (db.rows.filter (fun r => r.sourceFile == filename)).length

/-- `DatabaseManager.fetch_line_items` for one order id, as `reconcile_po`
consumes the rows. -/
def fetchRecItems (db : DbState) (po : String) : List RecItem :=
  (db.rows.filter (fun r => r.poNumber == some po)).map
    (fun r => ⟨r.docType, r.lineRef, r.quantity, r.description⟩)

/-- The rows of `get_mergeable_bundles`' query: `po_number IS NOT NULL AND
status = 'SUCCESS'`, yielding `(po_number, file_path, doc_type)`. -/
def mergeableRows (db : DbState) : List (String × String × String) :=
  db.files.filterMap (fun r =>
    match r.poNumber with
    | some po => if r.status == "SUCCESS" then some (po, r.path, r.docType) else none
    | none => none)

/-- One bucketing step of `get_mergeable_bundles`' grouping loop. -/
def bundleStep (d : List (String × List (String × String)))
    (e : String × String × String) : List (String × List (String × String)) :=
  match dictGet d e.1 with
  | some l => dictSet d e.1 (l ++ [(e.2.1, e.2.2)])
  | none => d ++ [(e.1, [(e.2.1, e.2.2)])]

/-- Grouping of `get_mergeable_bundles`: order-preserving bucketing by order id. -/
def buildBundles (rows : List (String × String × String)) :
    List (String × List (String × String)) :=
  rows.foldl bundleStep []

/-! ### Physical filesystem -/

/-- The physical filesystem as seen by the pipeline: files present in the input
areas, and basenames that were moved into the quarantine area. -/
structure Fs where
  present : List String
  quarantined : List String
deriving DecidableEq

/-- `os.path.basename` (POSIX separators). -/
def basename (p : String) : String :=
  String.mk ((p.toList.reverse.takeWhile (fun c => c != '/')).reverse)

/-- `_quarantine_file` via `safe_move_file`: no-op when the source is not on
disk; on a successful move the file leaves the input area and its basename
appears in quarantine; a failed (locked) move leaves everything in place. -/
def quarantineFile (fs : Fs) (moveOk : Bool) (path : String) : Fs :=
  if fs.present.contains path then
    if moveOk then
      { present := fs.present.erase path, quarantined := fs.quarantined ++ [basename path] }
    else fs
  else fs

/-! ### Pipeline orchestrator: scan step -/

/-- Oracle inputs of one scan step: the `(path, filename, doc_type)` tuples
returned by `scan_and_rename`, the content hash of each discovered file
(`None` on a read failure), and whether `os.remove` succeeds. -/
structure ScanEnv where
  found : List (String × String × String)
  hash : String → Option String
  removeOk : String → Bool

/-- Handling of one discovered file in `_step_scan_inputs`: hash, register,
then either nothing (new or benign restart) or deletion of a true duplicate. -/
def scanOne (env : ScanEnv) (st : DbState × Fs) (f : String × String × String) :
    DbState × Fs :=
  let path := f.1
  match env.hash path with
  | none => st
  | some h =>
    let rr := registerFile st.1 path f.2.1 f.2.2 h
    if rr.2.1 then (rr.1, st.2)
    else
      match rr.2.2 with
      | none => (rr.1, st.2)
      | some _ =>
        let isSame := match lookupHash rr.1 h with
          | some r => r.path == path
          | none => false
        if isSame then (rr.1, st.2)
        else if env.removeOk path then
          (rr.1, { st.2 with present := st.2.present.erase path })
        else (rr.1, st.2)

/-- `PipelineOrchestrator._step_scan_inputs`. -/
def scanStep (env : ScanEnv) (st : DbState × Fs) : DbState × Fs :=
  env.found.foldl (scanOne env) st

/-! ### Pipeline orchestrator: process step -/

/-- Outcome of `_is_safe_pdf`: fine, over the 50MB ceiling, a magic-byte/
content-type mismatch (which also moves the file to quarantine), or an
exception inside the check (caught, treated as unsafe, no move). -/
inductive SafeOutcome
  | ok
  | tooLarge
  | spoof
  | checkError
deriving DecidableEq

/-- Where an unexpected exception interrupts the `try` body of
`_step_process_files` for one file. -/
inductive ExcPhase
  | beforePo
  | afterSuccess
deriving DecidableEq

/-- A raw extracted line item as it reaches the save loop (post sanitization
and linking), before the orchestrator's quantity cleaning. -/
structure RawItem where
  lineRef : Option String
  description : Option String
  partNo : Option String
  quantityRaw : String
deriving DecidableEq

/-- Oracle inputs of one process step, collapsing the external extraction
collaborator (header extraction, fallback extraction, per-page line items),
physical file attributes, and exception behavior. -/
structure ProcEnv where
  fileSize : String → Nat
  mime : String → String
  safeRaises : String → Bool
  headerPo : String → Option String
  fallbackPo : String → Option String
  rawItems : String → List RawItem
  exc : String → Option (ExcPhase × String)
  moveOk : String → Bool

/-- `_is_safe_pdf` on the oracle's file attributes. -/
def safeOutcome (env : ProcEnv) (path : String) : SafeOutcome :=
  if env.safeRaises path then .checkError
  else if decide (env.fileSize path > 50 * 1024 * 1024) then .tooLarge
  else if env.mime path != "application/pdf" then .spoof
  else .ok

/-- The PO sanity filter: candidates starting (after upper/strip and `-`→`_`)
with the known invoice prefixes are rejected. -/
def rejectInvoiceCode (po : String) : Bool :=
  let c := (pyTrim (pyUpper po)).toList.map (fun ch => if ch == '-' then '_' else ch)
  ("SIV_RHO".toList.isPrefixOf c) || ("SIV_RAK".toList.isPrefixOf c)

/-- Order-id resolution in the process step: the header extraction's candidate,
killed by the sanity filter, then the fallback extractor if the candidate is
falsy; the result is used only when truthy. -/
def resolvePo (env : ProcEnv) (path : String) : Option String :=
  let po0 := env.headerPo path
  let po1 := if optTruthy po0 then (if rejectInvoiceCode (po0.getD "") then none else po0)
    else po0
  if optTruthy po1 then po1
  else
    let f := env.fallbackPo path
    if optTruthy f then f else po1

/-- Python `float(...)` on a cleaned quantity string (digits and dots only):
`None` when the string is empty or has more than one dot. -/
def pyFloatOfClean (s : String) : Option Qty :=
  let l := s.toList
  let digitsVal : List Char → Int := fun ds =>
    ds.foldl (fun a c => a * 10 + ((c.toNat : Int) - 48)) 0
  if l.isEmpty then none
  else if l.all Char.isDigit then some ⟨digitsVal l, 1⟩
  else
    let intPart := l.takeWhile (fun c => c != '.')
    let rest := l.dropWhile (fun c => c != '.')
    match rest with
    | _ :: frac =>
      if (intPart.all Char.isDigit) && (frac.all Char.isDigit) && !frac.contains '.' &&
          !(intPart.isEmpty && frac.isEmpty) then
        some ⟨digitsVal intPart * ((10 : Int) ^ frac.length) + digitsVal frac,
          10 ^ frac.length⟩
      else none
    | [] => none

/-- The orchestrator's quantity cleaning: strip every character that is not a
digit or a dot (`QTY_CLEANER`), then `float(...)` with fallback `0.0`. -/
def cleanQty (s : String) : Qty :=
  (pyFloatOfClean (String.mk (s.toList.filter (fun c => c.isDigit || c == '.')))).getD 0

/-- The rows persisted for one processed file: the linked items tagged with the
file's doc type and basename, quantities cleaned. -/
def rowsFor (env : ProcEnv) (path docType po : String) : List DbRow :=
  (env.rawItems path).map (fun it =>
    { poNumber := some po, docType := docType, sourceFile := basename path
      lineRef := it.lineRef, description := it.description, partNo := it.partNo
      quantity := some (cleanQty it.quantityRaw) })

/-- Processing of one pending record in `_step_process_files`: existence check,
safety check (a failure is recorded as `FAILED`), then `PROCESSING`, order-id
resolution, and either `SUCCESS` plus persisted line items, or quarantine —
with unexpected exceptions converted to quarantine at the recorded phase. -/
def processOne (env : ProcEnv) (st : DbState × Fs) (f : String × String × String) :
    DbState × Fs :=
  let path := f.1
  let db := st.1
  let fs := st.2
  if !fs.present.contains path then
    (updateStatus db path "FAILED" none (some "File Not Found on Disk") none, fs)
  else
    match safeOutcome env path with
    | .tooLarge | .checkError =>
      (updateStatus db path "FAILED" none (some "Security Validation Failed") none, fs)
    | .spoof =>
      (updateStatus db path "FAILED" none (some "Security Validation Failed") none,
       quarantineFile fs (env.moveOk path) path)
    | .ok =>
      let db1 := updateStatus db path "PROCESSING" none none none
      match env.exc path with
      | some (.beforePo, msg) =>
        (updateStatus db1 path "QUARANTINED" none (some msg) none,
         quarantineFile fs (env.moveOk path) path)
      | _ =>
        match resolvePo env path with
        | some po =>
          if po == "" then
            (updateStatus db1 path "QUARANTINED" none
              (some "No PO Number found after all fallback attempts.") none,
             quarantineFile fs (env.moveOk path) path)
          else
            let db2 := updateStatus db1 path "SUCCESS" (some po) none none
            match env.exc path with
            | some (.afterSuccess, msg) =>
              (updateStatus db2 path "QUARANTINED" none (some msg) none,
               quarantineFile fs (env.moveOk path) path)
            | _ => (saveLineItems db2 (rowsFor env path f.2.1 po), fs)
        | none =>
          (updateStatus db1 path "QUARANTINED" none
            (some "No PO Number found after all fallback attempts.") none,
           quarantineFile fs (env.moveOk path) path)

/-- `PipelineOrchestrator._step_process_files`: the pending/failed queue is
fetched once, then each record is processed in order. -/
def processStep (env : ProcEnv) (st : DbState × Fs) : DbState × Fs :=
  (getPendingFiles st.1).foldl (processOne env) st

/-! ### Pipeline orchestrator: merge step -/

/-- Oracle inputs of one merge step: the fuzzy-matching collaborator used by
reconciliation, the proof-of-delivery keyword check on a delivery document's
first page, and the failure behavior of PDF reads, output writes and moves. -/
structure MergeEnv where
  matcher : Matcher
  supportText : String → Bool
  appendRaises : String → Bool
  saveOk : String → Bool
  moveOk : String → Bool

/-- Normalization of a bundle file's `doc_type` into a role, as done in
`_step_merge_documents`' completeness check. -/
def normFileType (t : String) : Option String :=
  let tl := pyLower t
  if tl == "po" || tl == "purchase_order" then some "po"
  else if tl == "do" || tl == "delivery_note" || tl == "delivery" then some "do"
  else if tl == "si" || tl == "sales_invoice" || tl == "invoice" then some "si"
  else none

/-- The `type_priority` table (invoice on top, delivery, order, rest last). -/
def typePriority (t : String) : Nat :=
  let tl := pyLower t
  if tl == "si" || tl == "sales_invoice" || tl == "invoice" then 1
  else if tl == "do" || tl == "delivery_note" || tl == "delivery" then 2
  else if tl == "po" || tl == "purchase_order" then 3
  else 99

/-- Stable insertion of a file into a priority-sorted prefix (equal priorities
keep their original relative order, as Python's stable `sorted`). -/
def insertByPriority (x : String × String) :
    List (String × String) → List (String × String)
  | [] => [x]
  | y :: ys =>
    if typePriority y.2 ≤ typePriority x.2 then y :: insertByPriority x ys
    else x :: y :: ys

/-- Stable sort of a bundle's files by `type_priority`. -/
def sortByPriority (files : List (String × String)) : List (String × String) :=
  files.foldl (fun acc f => insertByPriority f acc) []

/-- Whether a bundle file's type counts as a delivery document in the
zero-item filter. -/
def isDeliveryType (t : String) : Bool :=
  let tl := pyLower t
  tl == "do" || tl == "delivery_note" || tl == "delivery"

/-- The per-file assembly loop of a `MATCH`ed (or `ATTENTION`) bundle: missing
files are skipped; zero-item delivery documents are kept only with
proof-of-delivery keywords and otherwise quarantined (record only); other
zero-item files are archived; a PDF append error aborts the bundle (the
bundle-level `except`), keeping the status updates made so far. -/
def mergeFilesLoop (menv : MergeEnv) (db : DbState) (fs : Fs) :
    List (String × String) → List String → DbState × List String × Bool
  | [], used => (db, used, false)
  | f :: rest, used =>
    let path := f.1
    if !fs.present.contains path then mergeFilesLoop menv db fs rest used
    else if getLineItemCount db (basename path) == 0 then
      if isDeliveryType f.2 then
        if menv.supportText path then
          if menv.appendRaises path then (db, used, true)
          else mergeFilesLoop menv db fs rest (used ++ [path])
        else
          mergeFilesLoop menv
            (updateStatus db path "QUARANTINED" none (some "Skipped: Blank or T&C page") none)
            fs rest used
      else
        mergeFilesLoop menv
          (updateStatus db path "ARCHIVED" none (some "Skipped: No Items") none)
          fs rest used
    else if menv.appendRaises path then (db, used, true)
    else mergeFilesLoop menv db fs rest (used ++ [path])

/-- One file of `_quarantine_bundle`: when the file is still on disk and the
move succeeds, it is relocated and its record marked `QUARANTINED`. -/
def qbStep (menv : MergeEnv) (reason : String) (acc : DbState × Fs)
    (f : String × String) : DbState × Fs :=
  if acc.2.present.contains f.1 then
    if menv.moveOk f.1 then
      (updateStatus acc.1 f.1 "QUARANTINED" none
        (some ("Bundle Mismatch: " ++ reason)) none,
       { present := acc.2.present.erase f.1,
         quarantined := acc.2.quarantined ++ [basename f.1] })
    else acc
  else acc

/-- `_quarantine_bundle` over the bundle's files. -/
def quarantineBundle (menv : MergeEnv) (st : DbState × Fs) (reason : String)
    (files : List (String × String)) : DbState × Fs :=
  files.foldl (qbStep menv reason) st

/-- Handling of one bundle in `_step_merge_documents`: completeness check on
normalized roles, reconciliation, verdict dispatch, and for merging verdicts
the assembly loop followed by the `MERGED` updates when the output write
succeeds. -/
def mergeBundle (menv : MergeEnv) (st : DbState × Fs)
    (b : String × List (String × String)) : DbState × Fs :=
  let po := b.1
  let files := b.2
  let normed := (files.map (fun f => f.2)).filterMap normFileType
  if !(normed.contains "po" && normed.contains "do" && normed.contains "si") then st
  else
    let sorted := sortByPriority files
    let recon := reconcilePo (fetchRecItems st.1 po) menv.matcher
    let status := recon.overallStatus
    if status == "WAITING_FOR_DOCS" then st
    else if status == "MISMATCH" || status == "DATA_DISCREPANCY" then
      quarantineBundle menv st (recon.details.getD "Line Item Mismatch detected") sorted
    else if status == "INCOMPLETE" then st
    else if status == "MATCH" && recon.lineItems.isEmpty then st
    else if status == "INVOICE_PENDING" then st
    else
      let out := mergeFilesLoop menv st.1 st.2 sorted []
      if out.2.2 then (out.1, st.2)
      else if out.2.1.isEmpty then (out.1, st.2)
      else if menv.saveOk po then
        (out.2.1.foldl (fun d p => updateStatus d p "MERGED" none none none) out.1, st.2)
      else (out.1, st.2)

/-- `PipelineOrchestrator._step_merge_documents`: bundles are computed once
from the step's initial state, then handled in order. -/
def mergeStep (menv : MergeEnv) (st : DbState × Fs) : DbState × Fs :=
  (buildBundles (mergeableRows st.1)).foldl (mergeBundle menv) st

/-! ### The pipeline as a transition system -/

/-- One pipeline operation with its oracle inputs. -/
inductive PipeStep
  | scan (env : ScanEnv)
  | process (env : ProcEnv)
  | merge (env : MergeEnv)

/-- Execution of one pipeline operation. -/
def runStep (s : PipeStep) (st : DbState × Fs) : DbState × Fs :=
  match s with
  | .scan env => scanStep env st
  | .process env => processStep env st
  | .merge env => mergeStep env st

/-- Execution of a sequence of pipeline operations. -/
def runSteps (steps : List PipeStep) (st : DbState × Fs) : DbState × Fs :=
  steps.foldl (fun s stp => runStep stp s) st

/-- `file_path` is `UNIQUE` in the `files` table. -/
def pathsNodup (db : DbState) : Prop :=
  (db.files.map (fun r => r.path)).Nodup

/-! ### Characterization of the comparison loop's verdict -/

/-- The status written to `universe_status` by one line of the comparison loop
(`none` when the line fires no check): the invoice check overrides the delivery
check within the line. -/
def lineWrite (ordered received invoiced : Qty) : Option String :=
  if Qty.blt invoiced received then some "INVOICE_PENDING"
  else if Qty.blt received invoiced then some "ATTENTION"
  else if Qty.blt received ordered then some "INCOMPLETE"
  else if Qty.blt ordered received then some "ATTENTION"
  else none

/-- The sequence of statuses written while scanning the order ledger in
insertion order. -/
def ledgerWrites (po : List (String × Qty × Option String))
    (dl sl : List (String × Qty)) : List String :=
  po.filterMap (fun e =>
    lineWrite e.2.1 ((dictGet dl e.1).getD 0) ((dictGet sl e.1).getD 0))

/-! ### Concrete reconciliation inputs -/

/-- The constantly-empty fuzzy matcher (collaborator unavailable or no match). -/
def noMatcher : Matcher := fun _ _ => []

/-- C1 counterexample input: one order line of 10, delivered 5, invoiced 8. -/
def c1Items : List RecItem :=
  [⟨"purchase_order", some "1", some 10, some "widget"⟩,
   ⟨"delivery_note", some "1", some 5, none⟩,
   ⟨"sales_invoice", some "1", some 8, none⟩]

/-- C1 witness input: line 1 balanced, line 2 under-delivered (the last write). -/
def c1wItems : List RecItem :=
  [⟨"purchase_order", some "1", some 10, some "widget"⟩,
   ⟨"purchase_order", some "2", some 5, some "gadget"⟩,
   ⟨"delivery_note", some "1", some 10, none⟩,
   ⟨"delivery_note", some "2", some 3, none⟩,
   ⟨"sales_invoice", some "1", some 10, none⟩,
   ⟨"sales_invoice", some "2", some 3, none⟩]

/-- C7 witness input, spec scenario D: a balanced line plus the invoice orphan
`{ref:"9", qty:5}` with no corresponding order line. -/
def c7Items : List RecItem :=
  [⟨"purchase_order", some "1", some 10, some "widget"⟩,
   ⟨"delivery_note", some "1", some 10, none⟩,
   ⟨"sales_invoice", some "1", some 10, none⟩,
   ⟨"sales_invoice", some "9", some 5, none⟩]

/-- C9 counterexample input: order lines 1 and 2; line 2 untouched in both other
ledgers, which instead carry the orphan ref 9. -/
def c9Items : List RecItem :=
  [⟨"purchase_order", some "1", some 10, some "apple"⟩,
   ⟨"purchase_order", some "2", some 5, some "pear"⟩,
   ⟨"delivery_note", some "1", some 10, none⟩,
   ⟨"delivery_note", some "9", some 5, none⟩,
   ⟨"sales_invoice", some "1", some 10, none⟩,
   ⟨"sales_invoice", some "9", some 5, none⟩]

/-- A fuzzy-matcher response reassigning orphan ref 9 to order line 2 with high
confidence. -/
def c9Matcher : Matcher := fun _ _ => [⟨"2", "9", "high"⟩]

/-- C9 witness input: a fully balanced bundle (no unmatched order line, so the
collaborator is never consulted). -/
def c9wItems : List RecItem :=
  [⟨"purchase_order", some "1", some 10, some "apple"⟩,
   ⟨"delivery_note", some "1", some 10, none⟩,
   ⟨"sales_invoice", some "1", some 10, none⟩]

/-! ### Claims C2, C4, C5, C10: registration and the scan step -/

/-- A concrete registered record shared by the scan-step witnesses. -/
def c2Rec : FileRec :=
  ⟨"Sales_invoice/SI_a.pdf", "SI_a.pdf", some "h1", "si", none, "PENDING", none⟩

/-- C2 counterexample state: one registered record. -/
def c2Db : DbState := ⟨[c2Rec], []⟩

/-- A concrete scan environment whose hash oracle always answers `h1` and whose
removals succeed. -/
def scanEnvW : ScanEnv :=
  ⟨[("Sales_invoice/SI_a.pdf", "SI_a.pdf", "si")], fun _ => some "h1", fun _ => true⟩

/-! ### Claim C3 -/

/-- C3 state: one pending spoofed file and one pending oversized file. -/
def c3Db : DbState :=
  ⟨[⟨"Sales_invoice/SI_spoof.pdf", "SI_spoof.pdf", some "h3", "si", none, "PENDING", none⟩,
    ⟨"Sales_invoice/SI_big.pdf", "SI_big.pdf", some "h4", "si", none, "PENDING", none⟩], []⟩

/-- C3 environment: `SI_spoof.pdf` is small but not a PDF by magic bytes;
`SI_big.pdf` exceeds the 50MB ceiling. -/
def c3Env : ProcEnv :=
  { fileSize := fun p => if p == "Sales_invoice/SI_big.pdf" then 60 * 1024 * 1024 else 1000
    mime := fun p => if p == "Sales_invoice/SI_big.pdf" then "application/pdf" else "image/png"
    safeRaises := fun _ => false
    headerPo := fun _ => none
    fallbackPo := fun _ => none
    rawItems := fun _ => []
    exc := fun _ => none
    moveOk := fun _ => true }

/-! ### Claim C8: status monotonicity — basic storage lemmas -/

/-- The statuses that are terminal for a file record. -/
def isTerminalStatus (s : String) : Prop :=
  s = "MERGED" ∨ s = "ARCHIVED" ∨ s = "QUARANTINED"

/-- The merged record of the C8 witness state. -/
def c8Rec : FileRec :=
  ⟨"Sales_invoice/SI_m.pdf", "SI_m.pdf", some "h8", "si", some "PO9", "MERGED", none⟩

/-- C8 witness state: one `MERGED` record and one `PENDING` record. -/
def c8Db : DbState :=
  ⟨[c8Rec, ⟨"Purchase_order/PO_n.pdf", "PO_n.pdf", some "h9", "po", none, "PENDING", none⟩], []⟩

/-- C8 witness filesystem. -/
def c8Fs : Fs := ⟨["Sales_invoice/SI_m.pdf", "Purchase_order/PO_n.pdf"], []⟩

/-- C8 witness run: one scan, one process and one merge pass with concrete
oracle inputs. -/
def c8Steps : List PipeStep :=
  [.scan ⟨[("Purchase_order/PO_n.pdf", "PO_n.pdf", "po")], fun _ => some "h9", fun _ => true⟩,
   .process ⟨fun _ => 1000, fun _ => "application/pdf", fun _ => false,
     fun _ => some "PO9", fun _ => none, fun _ => [], fun _ => none, fun _ => true⟩,
   .merge ⟨fun _ _ => [], fun _ => false, fun _ => false, fun _ => true, fun _ => true⟩]

lemma firstDigitRun_eq (l : List Char) :
    firstDigitRun l =
      if l.any Char.isDigit then
        some (String.mk ((l.dropWhile (fun c => !c.isDigit)).takeWhile Char.isDigit))
      else none := by
  induction l with
  | nil => rfl
  | cons c rest ih =>
    by_cases hc : c.isDigit
    · simp [firstDigitRun, hc, List.dropWhile, List.takeWhile]
    · simp [firstDigitRun, hc, ih, List.dropWhile]

lemma normalizeCore_eq_spec (s : String) :
    normalizeCore s = normalizeCoreSpec s := by
  unfold normalizeCore normalizeCoreSpec
  rw [firstDigitRun_eq]
  split_ifs <;> rfl

lemma normalizeKey_eq_spec (rawRef : String) :
    normalizeKey rawRef = normalizeKeySpec rawRef := by
  unfold normalizeKey normalizeKeySpec
  rw [normalizeCore_eq_spec]

lemma univAfterLine_eq_lineWrite (u : String) (o r i : Qty) :
    univAfterLine u o r i = (lineWrite o r i).getD u := by
  unfold univAfterLine lineWrite
  split_ifs <;> rfl

lemma foldl_compareStep_status (dl sl : List (String × Qty))
    (po : List (String × Qty × Option String)) :
    ∀ acc : CompareOut,
      (po.foldl (compareStep dl sl) acc).status =
        (ledgerWrites po dl sl).getLastD acc.status := by
  induction po with
  | nil => intro acc; rfl
  | cons e rest ih =>
    intro acc
    rw [List.foldl_cons, ih]
    have hstep : (compareStep dl sl acc e).status =
        (lineWrite e.2.1 ((dictGet dl e.1).getD 0) ((dictGet sl e.1).getD 0)).getD acc.status :=
      univAfterLine_eq_lineWrite _ _ _ _
    cases h : lineWrite e.2.1 ((dictGet dl e.1).getD 0) ((dictGet sl e.1).getD 0) with
    | none =>
      rw [hstep, h]
      have hlw : ledgerWrites (e :: rest) dl sl = ledgerWrites rest dl sl := by
        simp [ledgerWrites, List.filterMap_cons, h]
      rw [hlw, Option.getD_none]
    | some w =>
      rw [hstep, h]
      have hlw : ledgerWrites (e :: rest) dl sl = w :: ledgerWrites rest dl sl := by
        simp [ledgerWrites, List.filterMap_cons, h]
      rw [hlw, List.getLastD_cons, Option.getD_some]

lemma compareLedgers_status (po : List (String × Qty × Option String))
    (dl sl : List (String × Qty)) :
    (compareLedgers po dl sl).status = (ledgerWrites po dl sl).getLastD "MATCH" :=
  foldl_compareStep_status dl sl po _

lemma buildLedgers_nil_seenPo : (buildLedgers []).seenPo = false := rfl

lemma isEmpty_false_of_seen {items : List RecItem}
    (h : ((buildLedgers items).seenPo && (buildLedgers items).seenDn &&
      (buildLedgers items).seenSi) = true) : items.isEmpty = false := by
  cases items with
  | nil =>
    exfalso
    rw [show (buildLedgers ([] : List RecItem)).seenPo = false from rfl] at h
    simp at h
  | cons a l => rfl

/-! ### Claim C1 -/

/-- C1, counterexample: in `c1Items` every role is present, the single order
line has `received = 5 < 10 = ordered`, yet the verdict is `ATTENTION`, not the
claimed `INCOMPLETE` — the invoice check (`invoiced = 8 > 5 = received`)
overwrites the blocking status instead of yielding to it. -/
theorem C1_priority_counterexample :
    (buildLedgers c1Items).po = [("1", 10, some "widget")] ∧
    (buildLedgers c1Items).dn = [("1", (5 : Qty))] ∧
    Qty.blt 5 10 = true ∧
    (reconcilePo c1Items noMatcher).overallStatus = "ATTENTION" ∧
    "ATTENTION" ≠ "INCOMPLETE" := by
  refine ⟨by decide, by decide, by decide, by decide, by decide⟩

/-- C1 (amended): the overall verdict does not follow a blocking-over-ATTENTION
priority; it is the last status written while scanning order-ledger keys in
insertion order, where within one line the invoice comparison overrides the
delivery comparison and across lines a later write overwrites an earlier one
(`MATCH` only when no check fires on any line).  Stated for runs that reach the
comparison loop's verdict (all roles present, at least one matched line, no
leftover invoice orphan). -/
theorem C1_verdict_is_last_write (items : List RecItem) (matcher : Matcher)
    (hseen : ((buildLedgers items).seenPo && (buildLedgers items).seenDn &&
      (buildLedgers items).seenSi) = true)
    (hmatched : (compareLedgers (buildLedgers items).po
        (orphanFix matcher (buildLedgers items)).1
        (orphanFix matcher (buildLedgers items)).2).matched ≠ 0)
    (hnoghost : ∀ x ∈ (orphanFix matcher (buildLedgers items)).2,
      dictHas (buildLedgers items).po x.1 = true) :
    (reconcilePo items matcher).overallStatus =
      (ledgerWrites (buildLedgers items).po
        (orphanFix matcher (buildLedgers items)).1
        (orphanFix matcher (buildLedgers items)).2).getLastD "MATCH" := by
  have hne := isEmpty_false_of_seen hseen
  unfold reconcilePo
  rw [hne]
  simp only [Bool.false_eq_true, if_false, hseen, Bool.not_true]
  have hz : (decide (0 < (buildLedgers items).po.length) &&
      ((compareLedgers (buildLedgers items).po
        (orphanFix matcher (buildLedgers items)).1
        (orphanFix matcher (buildLedgers items)).2).matched == 0)) = false := by
    rcases h : (compareLedgers (buildLedgers items).po
        (orphanFix matcher (buildLedgers items)).1
        (orphanFix matcher (buildLedgers items)).2).matched with _ | n
    · exact absurd h hmatched
    · simp [h]
  rw [hz]
  have hfind : ((orphanFix matcher (buildLedgers items)).2.find?
      (fun p => !dictHas (buildLedgers items).po p.1)) = none := by
    rw [List.find?_eq_none]
    intro x hx
    simp [hnoghost x hx]
  rw [hfind]
  simp only [Bool.false_eq_true, if_false]
  exact compareLedgers_status _ _ _

/-- C1 witness: on `c1wItems` (line 1 balanced, line 2 under-delivered last)
the hypotheses hold and the amended characterization applies concretely. -/
theorem C1_verdict_is_last_write_witness :
    (((buildLedgers c1wItems).seenPo && (buildLedgers c1wItems).seenDn &&
      (buildLedgers c1wItems).seenSi) = true) ∧
    ((compareLedgers (buildLedgers c1wItems).po
        (orphanFix noMatcher (buildLedgers c1wItems)).1
        (orphanFix noMatcher (buildLedgers c1wItems)).2).matched ≠ 0) ∧
    (reconcilePo c1wItems noMatcher).overallStatus =
      (ledgerWrites (buildLedgers c1wItems).po
        (orphanFix noMatcher (buildLedgers c1wItems)).1
        (orphanFix noMatcher (buildLedgers c1wItems)).2).getLastD "MATCH" :=
  ⟨by decide, by decide,
    C1_verdict_is_last_write c1wItems noMatcher (by decide) (by decide) (by decide)⟩

/-! ### Claim C6 -/

/-- C6, counterexample: a digit-free ref does not fall through unchanged — the
code strips and upper-cases it, so `"abc"` yields key `"ABC" ≠ "abc"`. -/
theorem C6_unchanged_counterexample :
    normalizeKey "abc" = "ABC" ∧ "ABC" ≠ "abc" := by
  refine ⟨by decide, by decide⟩

/-- C6 (amended): the comparison key is computed from the *stripped, upper-cased*
ref by, in order, (a) the string itself when purely numeric, (b) the re-stripped
prefix before `-` or `.` when that prefix is numeric, (c) the first digit run;
a ref whose stripped upper-cased form contains no digit falls through as that
form (and the empty ref maps to `"UNKNOWN"`). -/
theorem C6_normalize_key_spec (rawRef : String) :
    normalizeKey rawRef = normalizeKeySpec rawRef :=
  normalizeKey_eq_spec rawRef

/-! ### Claim C7 -/

/-- C7: with all three roles present, any invoice-ledger key that survives the
orphan-reconciliation step with no corresponding order-ledger key forces the
verdict `MISMATCH`. -/
theorem C7_unordered_invoice_mismatch (items : List RecItem) (matcher : Matcher)
    (hseen : ((buildLedgers items).seenPo && (buildLedgers items).seenDn &&
      (buildLedgers items).seenSi) = true)
    (hghost : ∃ x ∈ (orphanFix matcher (buildLedgers items)).2,
      dictHas (buildLedgers items).po x.1 = false) :
    (reconcilePo items matcher).overallStatus = "MISMATCH" := by
  have hne := isEmpty_false_of_seen hseen
  unfold reconcilePo
  rw [hne]
  simp only [Bool.false_eq_true, if_false, hseen, Bool.not_true]
  by_cases hz : (decide (0 < (buildLedgers items).po.length) &&
      ((compareLedgers (buildLedgers items).po
        (orphanFix matcher (buildLedgers items)).1
        (orphanFix matcher (buildLedgers items)).2).matched == 0)) = true
  · rw [hz]
    rfl
  · rw [Bool.not_eq_true] at hz
    rw [hz]
    obtain ⟨x, hx, hpx⟩ := hghost
    have hsome : ((orphanFix matcher (buildLedgers items)).2.find?
        (fun p => !dictHas (buildLedgers items).po p.1)).isSome := by
      rw [List.find?_isSome]
      exact ⟨x, hx, by simp [hpx]⟩
    obtain ⟨y, hy⟩ := Option.isSome_iff_exists.1 hsome
    rw [hy]
    rfl

/-- C7 witness: spec scenario D — the invoice orphan `{ref:"9", qty:5}` with no
matching order line and an empty matcher response yields `MISMATCH`. -/
theorem C7_unordered_invoice_mismatch_witness :
    (((buildLedgers c7Items).seenPo && (buildLedgers c7Items).seenDn &&
      (buildLedgers c7Items).seenSi) = true) ∧
    (∃ x ∈ (orphanFix noMatcher (buildLedgers c7Items)).2,
      dictHas (buildLedgers c7Items).po x.1 = false) ∧
    (reconcilePo c7Items noMatcher).overallStatus = "MISMATCH" :=
  ⟨by decide, by decide,
    C7_unordered_invoice_mismatch c7Items noMatcher (by decide) (by decide)⟩

/-! ### Claim C9 -/

/-- C9, counterexample: the verdict is not a function of the line items alone —
on `c9Items` a run whose fuzzy-matching collaborator returns nothing yields
`MISMATCH`, while a run whose collaborator proposes the high-confidence
reassignment 9 → 2 yields `MATCH`; since the collaborator is a temperature-
sampled network call, repeated `reconcile` calls on the same items can disagree. -/
theorem C9_determinism_counterexample :
    (reconcilePo c9Items noMatcher).overallStatus = "MISMATCH" ∧
    (reconcilePo c9Items c9Matcher).overallStatus = "MATCH" ∧
    "MISMATCH" ≠ "MATCH" := by
  refine ⟨by decide, by decide, by decide⟩

/-- C9 (amended): the verdict is deterministic in the items *and* the
collaborator's response; in particular, whenever the orphan-matching call is not
taken (no order line unmatched on both sides, or no delivery/invoice orphans),
the verdict is independent of the collaborator and repeated calls agree. -/
theorem C9_determinism_without_orphans (items : List RecItem)
    (h : (unmatchedPoLines (buildLedgers items)).isEmpty = true ∨
      (orphanCands (buildLedgers items)).isEmpty = true) :
    ∀ m₁ m₂ : Matcher, reconcilePo items m₁ = reconcilePo items m₂ := by
  intro m₁ m₂
  have horph : ∀ m : Matcher,
      orphanFix m (buildLedgers items) =
        ((buildLedgers items).dn, (buildLedgers items).si) := by
    intro m
    unfold orphanFix
    rcases h with h | h <;> simp [h]
  unfold reconcilePo
  simp only [horph]

/-- C9 witness: on the balanced bundle `c9wItems` the empty-response and the
reassigning collaborators give identical results. -/
theorem C9_determinism_without_orphans_witness :
    ((unmatchedPoLines (buildLedgers c9wItems)).isEmpty = true ∨
      (orphanCands (buildLedgers c9wItems)).isEmpty = true) ∧
    reconcilePo c9wItems noMatcher = reconcilePo c9wItems c9Matcher :=
  ⟨Or.inl (by decide),
    C9_determinism_without_orphans c9wItems (Or.inl (by decide)) noMatcher c9Matcher⟩

/-- C2, counterexample: re-registering the very same path with its existing hash
(a restart) *does* report a conflict — `register_file` checks the hash first and
returns the stored filename without looking at the path. -/
theorem C2_same_path_conflict_counterexample :
    (registerFile c2Db "Sales_invoice/SI_a.pdf" "SI_a.pdf" "si" "h1").2 =
      (false, some "SI_a.pdf") ∧ (some "SI_a.pdf" : Option String) ≠ none := by
  refine ⟨by decide, by decide⟩

/-- C2 (amended): `register_file` reports the existing filename even when the
hash sits under the same path, but the scan step re-queries the stored path and,
finding it equal to the current one, treats the conflict as a benign restart:
the database, the filesystem and the queue are left untouched. -/
theorem C2_restart_not_acted_on (env : ScanEnv) (st : DbState × Fs)
    (p fn dt h : String) (r : FileRec)
    (hh : env.hash p = some h) (hr : lookupHash st.1 h = some r) (hp : r.path = p) :
    (registerFile st.1 p fn dt h).2 = (false, some r.filename) ∧
    scanOne env st (p, fn, dt) = st := by
  constructor
  · unfold registerFile
    rw [hr]
  · unfold scanOne
    simp only [hh, registerFile, hr]
    simp [hp]

/-- C2 witness: the restart situation of `c2Db` under `scanEnvW`. -/
theorem C2_restart_not_acted_on_witness :
    scanEnvW.hash "Sales_invoice/SI_a.pdf" = some "h1" ∧
    lookupHash c2Db "h1" = some c2Rec ∧
    (registerFile c2Db "Sales_invoice/SI_a.pdf" "SI_a.pdf" "si" "h1").2 =
      (false, some "SI_a.pdf") ∧
    scanOne scanEnvW (c2Db, ⟨["Sales_invoice/SI_a.pdf"], []⟩)
      ("Sales_invoice/SI_a.pdf", "SI_a.pdf", "si") = (c2Db, ⟨["Sales_invoice/SI_a.pdf"], []⟩) :=
  ⟨by decide, by decide,
    (C2_restart_not_acted_on scanEnvW (c2Db, ⟨["Sales_invoice/SI_a.pdf"], []⟩)
      "Sales_invoice/SI_a.pdf" "SI_a.pdf" "si" "h1" c2Rec (by decide) (by decide) (by decide)).1,
    (C2_restart_not_acted_on scanEnvW (c2Db, ⟨["Sales_invoice/SI_a.pdf"], []⟩)
      "Sales_invoice/SI_a.pdf" "SI_a.pdf" "si" "h1" c2Rec (by decide) (by decide) (by decide)).2⟩

/-- C4: a discovered file whose hash matches an existing record under a
*different* path is deleted from disk; the database (hence the retry queue) is
unchanged and no new record appears. -/
theorem C4_true_duplicate_deleted (env : ScanEnv) (st : DbState × Fs)
    (p fn dt h : String) (r : FileRec)
    (hh : env.hash p = some h) (hr : lookupHash st.1 h = some r)
    (hne : r.path ≠ p) (hrm : env.removeOk p = true) :
    (scanOne env st (p, fn, dt)).1 = st.1 ∧
    (scanOne env st (p, fn, dt)).2 =
      { st.2 with present := st.2.present.erase p } ∧
    getPendingFiles (scanOne env st (p, fn, dt)).1 = getPendingFiles st.1 := by
  have hbeq : (r.path == p) = false := by
    simp [hne]
  unfold scanOne
  simp only [hh, registerFile, hr]
  simp [hbeq, hrm]

/-- C4 witness: a duplicate copy under a second path is deleted while the
database stays as it was. -/
theorem C4_true_duplicate_deleted_witness :
    lookupHash c2Db "h1" = some c2Rec ∧
    c2Rec.path ≠ "Sales_invoice/SI_copy.pdf" ∧
    (scanOne scanEnvW (c2Db, ⟨["Sales_invoice/SI_copy.pdf"], []⟩)
        ("Sales_invoice/SI_copy.pdf", "SI_copy.pdf", "si")).1 = c2Db ∧
    (scanOne scanEnvW (c2Db, ⟨["Sales_invoice/SI_copy.pdf"], []⟩)
        ("Sales_invoice/SI_copy.pdf", "SI_copy.pdf", "si")).2 =
      ⟨([] : List String), ([] : List String)⟩ :=
  ⟨by decide, by decide,
    (C4_true_duplicate_deleted scanEnvW (c2Db, ⟨["Sales_invoice/SI_copy.pdf"], []⟩)
      "Sales_invoice/SI_copy.pdf" "SI_copy.pdf" "si" "h1" c2Rec (by decide) (by decide)
      (by decide) (by decide)).1,
    by
      have h2 := (C4_true_duplicate_deleted scanEnvW
        (c2Db, ⟨["Sales_invoice/SI_copy.pdf"], []⟩)
        "Sales_invoice/SI_copy.pdf" "SI_copy.pdf" "si" "h1" c2Rec (by decide) (by decide)
        (by decide) (by decide)).2.1
      rw [h2]
      decide⟩

/-- C5: registering a fresh file creates exactly one `PENDING` record and leaves
the disk alone, and scanning the identical, already-registered file again is a
no-op: no second record, no deletion. -/
theorem C5_idempotent_registration (env : ScanEnv) (st : DbState × Fs)
    (p fn dt h : String)
    (hh : env.hash p = some h)
    (hfh : lookupHash st.1 h = none) (hfp : lookupPath st.1 p = none) :
    (scanOne env st (p, fn, dt)).1.files =
      st.1.files ++ [⟨p, fn, some h, dt, none, "PENDING", none⟩] ∧
    (scanOne env st (p, fn, dt)).2 = st.2 ∧
    scanOne env (scanOne env st (p, fn, dt)) (p, fn, dt) = scanOne env st (p, fn, dt) := by
  have hfirst : scanOne env st (p, fn, dt) =
      ({ st.1 with files := st.1.files ++ [⟨p, fn, some h, dt, none, "PENDING", none⟩] }, st.2) := by
    unfold scanOne
    simp only [hh, registerFile, hfh, hfp]
    split <;> rfl
  refine ⟨by rw [hfirst], by rw [hfirst], ?_⟩
  rw [hfirst]
  unfold scanOne
  have hreg : lookupHash
      { st.1 with files := st.1.files ++ [⟨p, fn, some h, dt, none, "PENDING", none⟩] } h =
      some ⟨p, fn, some h, dt, none, "PENDING", none⟩ := by
    unfold lookupHash at hfh ⊢
    simp only [List.find?_append, hfh, Option.none_or]
    simp
  simp only [hh, registerFile, hreg]
  simp only [beq_self_eq_true]
  split <;> rfl

/-- C5 witness: scanning the same physical file twice from an empty database. -/
theorem C5_idempotent_registration_witness :
    lookupHash ⟨[], []⟩ "h1" = none ∧
    (scanOne scanEnvW ((⟨[], []⟩ : DbState), ⟨["Sales_invoice/SI_a.pdf"], []⟩)
        ("Sales_invoice/SI_a.pdf", "SI_a.pdf", "si")).1.files =
      [⟨"Sales_invoice/SI_a.pdf", "SI_a.pdf", some "h1", "si", none, "PENDING", none⟩] ∧
    scanOne scanEnvW
        (scanOne scanEnvW ((⟨[], []⟩ : DbState), ⟨["Sales_invoice/SI_a.pdf"], []⟩)
          ("Sales_invoice/SI_a.pdf", "SI_a.pdf", "si"))
        ("Sales_invoice/SI_a.pdf", "SI_a.pdf", "si") =
      scanOne scanEnvW ((⟨[], []⟩ : DbState), ⟨["Sales_invoice/SI_a.pdf"], []⟩)
        ("Sales_invoice/SI_a.pdf", "SI_a.pdf", "si") :=
  ⟨by decide,
    (C5_idempotent_registration scanEnvW ((⟨[], []⟩ : DbState), ⟨["Sales_invoice/SI_a.pdf"], []⟩)
      "Sales_invoice/SI_a.pdf" "SI_a.pdf" "si" "h1" (by decide) (by decide) (by decide)).1,
    (C5_idempotent_registration scanEnvW ((⟨[], []⟩ : DbState), ⟨["Sales_invoice/SI_a.pdf"], []⟩)
      "Sales_invoice/SI_a.pdf" "SI_a.pdf" "si" "h1" (by decide) (by decide) (by decide)).2.2⟩

/-- C10: when a registered path's content changed on disk (its new hash matches
no record), `register_file` answers `(false, none)` — no insert, no update, no
conflict — and the scan step takes no action at all: nothing is queued, deleted
or touched. -/
theorem C10_changed_file_ignored (env : ScanEnv) (st : DbState × Fs)
    (p fn dt h : String) (r₀ : FileRec)
    (hh : env.hash p = some h)
    (hfh : lookupHash st.1 h = none) (hfp : lookupPath st.1 p = some r₀) :
    registerFile st.1 p fn dt h = (st.1, false, none) ∧
    scanOne env st (p, fn, dt) = st ∧
    getPendingFiles (scanOne env st (p, fn, dt)).1 = getPendingFiles st.1 := by
  have hreg : registerFile st.1 p fn dt h = (st.1, false, none) := by
    unfold registerFile
    rw [hfh, hfp]
  have hscan : scanOne env st (p, fn, dt) = st := by
    unfold scanOne
    simp only [hh, hreg]
    split <;> rfl
  exact ⟨hreg, hscan, by rw [hscan]⟩

/-- C10 witness: the registered file's content changed (`h2` instead of `h1`). -/
theorem C10_changed_file_ignored_witness :
    lookupHash c2Db "h2" = none ∧
    lookupPath c2Db "Sales_invoice/SI_a.pdf" =
      some ⟨"Sales_invoice/SI_a.pdf", "SI_a.pdf", some "h1", "si", none, "PENDING", none⟩ ∧
    registerFile c2Db "Sales_invoice/SI_a.pdf" "SI_a.pdf" "si" "h2" = (c2Db, false, none) ∧
    scanOne ⟨[], fun _ => some "h2", fun _ => true⟩ (c2Db, ⟨["Sales_invoice/SI_a.pdf"], []⟩)
      ("Sales_invoice/SI_a.pdf", "SI_a.pdf", "si") = (c2Db, ⟨["Sales_invoice/SI_a.pdf"], []⟩) :=
  ⟨by decide, by decide,
    (C10_changed_file_ignored ⟨[], fun _ => some "h2", fun _ => true⟩
      (c2Db, ⟨["Sales_invoice/SI_a.pdf"], []⟩) "Sales_invoice/SI_a.pdf" "SI_a.pdf" "si" "h2"
      c2Rec (by decide) (by decide) (by decide)).1,
    (C10_changed_file_ignored ⟨[], fun _ => some "h2", fun _ => true⟩
      (c2Db, ⟨["Sales_invoice/SI_a.pdf"], []⟩) "Sales_invoice/SI_a.pdf" "SI_a.pdf" "si" "h2"
      c2Rec (by decide) (by decide) (by decide)).2.1⟩

/-- C3 (code bug, evaluated at the failing inputs): a pending file failing the
well-formedness check is *not* put in a never-retried state — the process step
records status `FAILED`, which is exactly the retry queue, so both files are
fetched again as pending on the next pass; the spoofed file is moved to
quarantine physically (making every retry fail with "not found") while the
oversized file is not quarantined at all, and neither record reads
`QUARANTINED`. -/
theorem C3_security_failure_is_retried :
    ((lookupPath (processStep c3Env (c3Db, ⟨["Sales_invoice/SI_spoof.pdf",
        "Sales_invoice/SI_big.pdf"], []⟩)).1 "Sales_invoice/SI_spoof.pdf").map
      (fun r => (r.status, r.errorMessage)) =
      some ("FAILED", some "Security Validation Failed")) ∧
    ((lookupPath (processStep c3Env (c3Db, ⟨["Sales_invoice/SI_spoof.pdf",
        "Sales_invoice/SI_big.pdf"], []⟩)).1 "Sales_invoice/SI_big.pdf").map
      (fun r => (r.status, r.errorMessage)) =
      some ("FAILED", some "Security Validation Failed")) ∧
    ((getPendingFiles (processStep c3Env (c3Db, ⟨["Sales_invoice/SI_spoof.pdf",
        "Sales_invoice/SI_big.pdf"], []⟩)).1).map (fun x => x.1) =
      ["Sales_invoice/SI_spoof.pdf", "Sales_invoice/SI_big.pdf"]) ∧
    ((processStep c3Env (c3Db, ⟨["Sales_invoice/SI_spoof.pdf",
        "Sales_invoice/SI_big.pdf"], []⟩)).2 =
      ⟨["Sales_invoice/SI_big.pdf"], ["SI_spoof.pdf"]⟩) := by
  refine ⟨by decide, by decide, by decide, by decide⟩

lemma find?_path_cons (a : FileRec) (l : List FileRec) (p : String) :
    (a :: l).find? (fun r => r.path == p) =
      if a.path == p then some a else l.find? (fun r => r.path == p) := by
  cases h : a.path == p <;> simp [List.find?_cons, h]

lemma find?_path_map_keep (l : List FileRec) (p q : String) (hne : ¬ q = p)
    (g : FileRec → FileRec) (hg : ∀ r, (g r).path = r.path) :
    (l.map (fun r => if r.path == q then g r else r)).find? (fun r => r.path == p) =
      l.find? (fun r => r.path == p) := by
  induction l with
  | nil => rfl
  | cons a l ih =>
    rw [List.map_cons, find?_path_cons, find?_path_cons]
    have hhead : ((if a.path == q then g a else a).path == p) = (a.path == p) := by
      by_cases haq : (a.path == q) = true
      · rw [if_pos haq, hg]
      · rw [if_neg (by simp [haq])]
    rw [hhead]
    by_cases hap : (a.path == p) = true
    · rw [if_pos hap, if_pos hap]
      have hap' : a.path = p := by simpa using hap
      have haq : (a.path == q) = false := by
        simp only [beq_eq_false_iff_ne, ne_eq, hap']
        exact fun e => hne e.symm
      rw [if_neg (by simp [haq])]
    · rw [if_neg hap, if_neg hap, ih]

lemma lookupPath_updateStatus_ne {q p : String} (hne : ¬ q = p) (db : DbState)
    (s : String) (po e t : Option String) :
    lookupPath (updateStatus db q s po e t) p = lookupPath db p := by
  unfold lookupPath updateStatus
  exact find?_path_map_keep _ p q hne _ (fun r => rfl)

lemma paths_updateStatus (db : DbState) (q s : String) (po e t : Option String) :
    (updateStatus db q s po e t).files.map (fun r => r.path) =
      db.files.map (fun r => r.path) := by
  unfold updateStatus
  rw [List.map_map]
  have h : ((fun r : FileRec => r.path) ∘ fun r : FileRec =>
      if r.path == q then
        { r with
          status := s
          poNumber := if optTruthy po then po else r.poNumber
          errorMessage := if optTruthy e then e else r.errorMessage
          docType := if optTruthy t then t.getD r.docType else r.docType }
      else r) = fun r : FileRec => r.path := by
    funext r
    by_cases hr : r.path = q <;> simp [hr]
  rw [h]

lemma saveLineItems_files (db : DbState) (items : List DbRow) :
    (saveLineItems db items).files = db.files := rfl

lemma lookupPath_saveLineItems (db : DbState) (items : List DbRow) (p : String) :
    lookupPath (saveLineItems db items) p = lookupPath db p := rfl

lemma lookupPath_registerFile {db : DbState} {p : String} {r : FileRec}
    (pa fn dt h : String) (hr : lookupPath db p = some r) :
    lookupPath (registerFile db pa fn dt h).1 p = some r := by
  unfold registerFile
  cases hh : lookupHash db h with
  | some r2 => exact hr
  | none =>
    cases hp : lookupPath db pa with
    | some r2 => exact hr
    | none =>
      show lookupPath { db with files := db.files ++ _ } p = some r
      unfold lookupPath at hr ⊢
      rw [List.find?_append, hr]
      rfl

lemma pathsNodup_registerFile (db : DbState) (pa fn dt h : String)
    (hnd : pathsNodup db) : pathsNodup (registerFile db pa fn dt h).1 := by
  unfold registerFile
  cases hh : lookupHash db h with
  | some r2 => exact hnd
  | none =>
    cases hp : lookupPath db pa with
    | some r2 => exact hnd
    | none =>
      show pathsNodup { db with files := db.files ++ _ }
      unfold pathsNodup at hnd ⊢
      rw [List.map_append, List.nodup_append]
      refine ⟨hnd, List.nodup_singleton _, ?_⟩
      intro a ha hb
      have hb' : a = pa := by simpa using hb
      obtain ⟨rec, hrec, hrecp⟩ := List.mem_map.1 ha
      have hnone := List.find?_eq_none.1 hp rec hrec
      apply hnone
      simp [hrecp, hb']

lemma find?_path_unique {l : List FileRec} {p : String} {r : FileRec}
    (hnd : (l.map (fun x => x.path)).Nodup)
    (hr : l.find? (fun x => x.path == p) = some r)
    {r' : FileRec} (hmem : r' ∈ l) (hp : r'.path = p) : r' = r := by
  induction l with
  | nil => cases hmem
  | cons a l ih =>
    rw [List.map_cons, List.nodup_cons] at hnd
    rw [find?_path_cons] at hr
    by_cases hap : (a.path == p) = true
    · rw [if_pos hap] at hr
      injection hr with hr
      rcases List.mem_cons.1 hmem with rfl | hmem'
      · exact hr
      · exfalso
        have hmm : r'.path ∈ l.map (fun x => x.path) := List.mem_map_of_mem _ hmem'
        have hap' : a.path = p := by simpa using hap
        rw [hp, ← hap'] at hmm
        exact hnd.1 hmm
    · rw [if_neg hap] at hr
      rcases List.mem_cons.1 hmem with rfl | hmem'
      · exact absurd (by simp [hp]) hap
      · exact ih hnd.2 hr hmem'

lemma lookupPath_unique {db : DbState} {p : String} {r : FileRec}
    (hnd : pathsNodup db) (hr : lookupPath db p = some r)
    {r' : FileRec} (hmem : r' ∈ db.files) (hp : r'.path = p) : r' = r :=
  find?_path_unique hnd hr hmem hp

lemma mem_getPendingFiles {db : DbState} {f : String × String × String}
    (h : f ∈ getPendingFiles db) :
    ∃ rec ∈ db.files, rec.path = f.1 ∧
      (rec.status = "PENDING" ∨ rec.status = "FAILED") := by
  unfold getPendingFiles at h
  obtain ⟨rec, hrec, hfeq⟩ := List.mem_map.1 h
  rw [List.mem_filter] at hrec
  refine ⟨rec, hrec.1, by rw [← hfeq], ?_⟩
  have h2 : rec.status = "PENDING" ∨ rec.status = "FAILED" := by
    simpa using hrec.2
  exact h2

lemma mem_mergeableRows {db : DbState} {x : String × String × String}
    (h : x ∈ mergeableRows db) :
    ∃ rec ∈ db.files, rec.path = x.2.1 ∧ rec.status = "SUCCESS" := by
  unfold mergeableRows at h
  obtain ⟨rec, hrec, heq⟩ := List.mem_filterMap.1 h
  cases hpo : rec.poNumber with
  | none => rw [hpo] at heq; cases heq
  | some po =>
    rw [hpo] at heq
    dsimp only at heq
    by_cases hs : (rec.status == "SUCCESS") = true
    · rw [if_pos hs] at heq
      injection heq with heq
      refine ⟨rec, hrec, ?_, by simpa using hs⟩
      rw [← heq]
    · rw [if_neg hs] at heq
      cases heq

/-! ### Claim C8: preservation through the scan step -/

lemma scanOne_fst (env : ScanEnv) (st : DbState × Fs) (f : String × String × String) :
    (scanOne env st f).1 = match env.hash f.1 with
      | none => st.1
      | some h => (registerFile st.1 f.1 f.2.1 f.2.2 h).1 := by
  unfold scanOne
  dsimp only
  cases env.hash f.1 with
  | none => rfl
  | some h =>
    dsimp only
    split
    · rfl
    · split
      · rfl
      · split
        · rfl
        · split <;> rfl

lemma scanOne_lookupPath {st : DbState × Fs} {p : String} {r : FileRec}
    (env : ScanEnv) (f : String × String × String)
    (hr : lookupPath st.1 p = some r) :
    lookupPath (scanOne env st f).1 p = some r := by
  rw [scanOne_fst]
  cases env.hash f.1 with
  | none => exact hr
  | some h => exact lookupPath_registerFile _ _ _ _ hr

lemma scanOne_nodup {st : DbState × Fs} (env : ScanEnv) (f : String × String × String)
    (hnd : pathsNodup st.1) : pathsNodup (scanOne env st f).1 := by
  rw [scanOne_fst]
  cases env.hash f.1 with
  | none => exact hnd
  | some h => exact pathsNodup_registerFile _ _ _ _ _ hnd

lemma foldl_scanOne_lookupPath (env : ScanEnv) (p : String) (r : FileRec) :
    ∀ (l : List (String × String × String)) (st : DbState × Fs),
      lookupPath st.1 p = some r →
      lookupPath ((l.foldl (scanOne env) st)).1 p = some r := by
  intro l
  induction l with
  | nil => exact fun st hr => hr
  | cons f l ih =>
    intro st hr
    rw [List.foldl_cons]
    exact ih _ (scanOne_lookupPath env f hr)

lemma foldl_scanOne_nodup (env : ScanEnv) :
    ∀ (l : List (String × String × String)) (st : DbState × Fs),
      pathsNodup st.1 → pathsNodup ((l.foldl (scanOne env) st)).1 := by
  intro l
  induction l with
  | nil => exact fun st h => h
  | cons f l ih =>
    intro st h
    rw [List.foldl_cons]
    exact ih _ (scanOne_nodup env f h)

/-! ### Claim C8: preservation through the process step -/

lemma processOne_lookupPath_ne (env : ProcEnv) (st : DbState × Fs)
    {f : String × String × String} {p : String} (hne : ¬ f.1 = p) :
    lookupPath (processOne env st f).1 p = lookupPath st.1 p := by
  unfold processOne
  dsimp only
  repeat' split
  all_goals try dsimp only
  all_goals try simp only [lookupPath_saveLineItems]
  all_goals (repeat rw [lookupPath_updateStatus_ne hne])

lemma paths_processOne (env : ProcEnv) (st : DbState × Fs)
    (f : String × String × String) :
    (processOne env st f).1.files.map (fun r => r.path) =
      st.1.files.map (fun r => r.path) := by
  unfold processOne
  dsimp only
  repeat' split
  all_goals try dsimp only
  all_goals try simp only [saveLineItems_files]
  all_goals (repeat rw [paths_updateStatus])

lemma foldl_processOne_lookupPath (env : ProcEnv) (p : String) (r : FileRec) :
    ∀ (l : List (String × String × String)) (st : DbState × Fs),
      (∀ f ∈ l, ¬ f.1 = p) → lookupPath st.1 p = some r →
      lookupPath ((l.foldl (processOne env) st)).1 p = some r := by
  intro l
  induction l with
  | nil => exact fun st _ hr => hr
  | cons f l ih =>
    intro st hl hr
    rw [List.foldl_cons]
    refine ih _ (fun g hg => hl g (List.mem_cons_of_mem _ hg)) ?_
    rw [processOne_lookupPath_ne env st (hl f (List.mem_cons_self _ _))]
    exact hr

lemma foldl_processOne_paths (env : ProcEnv) :
    ∀ (l : List (String × String × String)) (st : DbState × Fs),
      ((l.foldl (processOne env) st)).1.files.map (fun r => r.path) =
        st.1.files.map (fun r => r.path) := by
  intro l
  induction l with
  | nil => exact fun st => rfl
  | cons f l ih =>
    intro st
    rw [List.foldl_cons, ih, paths_processOne]

lemma processStep_lookupPath {st : DbState × Fs} {p : String} {r : FileRec}
    (env : ProcEnv) (hnd : pathsNodup st.1) (hr : lookupPath st.1 p = some r)
    (ht : isTerminalStatus r.status) :
    lookupPath (processStep env st).1 p = some r := by
  unfold processStep
  refine foldl_processOne_lookupPath env p r _ st ?_ hr
  intro f hf hfp
  obtain ⟨rec, hrec, hrecp, hrecs⟩ := mem_getPendingFiles hf
  rw [hfp] at hrecp
  have := lookupPath_unique hnd hr hrec hrecp
  subst this
  rcases ht with h | h | h <;> rcases hrecs with h2 | h2 <;>
    (rw [h] at h2; exact absurd h2 (by decide))

lemma processStep_nodup {st : DbState × Fs} (env : ProcEnv)
    (hnd : pathsNodup st.1) : pathsNodup (processStep env st).1 := by
  unfold processStep pathsNodup
  rw [foldl_processOne_paths]
  exact hnd

/-! ### Claim C8: preservation through the merge step -/

lemma mem_dictSet {α : Type} {d : List (String × α)} {k : String} {v : α}
    {x : String × α} (h : x ∈ dictSet d k v) : x ∈ d ∨ x = (k, v) := by
  unfold dictSet at h
  by_cases hk : dictHas d k = true
  · rw [if_pos hk] at h
    obtain ⟨y, hy, hxy⟩ := List.mem_map.1 h
    by_cases hyk : (y.1 == k) = true
    · right
      rw [← hxy, if_pos hyk]
    · left
      rw [← hxy, if_neg hyk]
      exact hy
  · rw [if_neg hk] at h
    rcases List.mem_append.1 h with h | h
    · exact Or.inl h
    · exact Or.inr (by simpa using h)

lemma dictGet_mem {α : Type} {d : List (String × α)} {k : String} {l : α}
    (h : dictGet d k = some l) : ∃ k', (k', l) ∈ d := by
  unfold dictGet at h
  cases hf : d.find? (fun p => p.1 == k) with
  | none => rw [hf] at h; cases h
  | some pr =>
    rw [hf] at h
    injection h with h
    subst h
    exact ⟨pr.1, by simpa using List.mem_of_find?_eq_some hf⟩

lemma foldl_bundleStep_paths (Q : String → Prop) :
    ∀ (l : List (String × String × String))
      (d : List (String × List (String × String))),
      (∀ b ∈ d, ∀ f ∈ b.2, Q f.1) → (∀ e ∈ l, Q e.2.1) →
      ∀ b ∈ l.foldl bundleStep d, ∀ f ∈ b.2, Q f.1 := by
  intro l
  induction l with
  | nil => exact fun d hd _ => hd
  | cons e l ih =>
    intro d hd hl
    rw [List.foldl_cons]
    refine ih _ ?_ (fun e' he' => hl e' (List.mem_cons_of_mem _ he'))
    intro b hb f hf
    unfold bundleStep at hb
    cases hget : dictGet d e.1 with
    | some ll =>
      rw [hget] at hb
      rcases mem_dictSet hb with hb | hb
      · exact hd b hb f hf
      · rw [hb] at hf
        rcases List.mem_append.1 hf with hf | hf
        · obtain ⟨k', hk'⟩ := dictGet_mem hget
          exact hd (k', ll) hk' f hf
        · have hfe : f = (e.2.1, e.2.2) := by simpa using hf
          rw [hfe]
          exact hl e (List.mem_cons_self _ _)
    | none =>
      rw [hget] at hb
      rcases List.mem_append.1 hb with hb | hb
      · exact hd b hb f hf
      · have hbe : b = (e.1, [(e.2.1, e.2.2)]) := by simpa using hb
        rw [hbe] at hf
        have hfe : f = (e.2.1, e.2.2) := by simpa using hf
        rw [hfe]
        exact hl e (List.mem_cons_self _ _)

lemma buildBundles_paths {rows : List (String × String × String)}
    {b : String × List (String × String)} (hb : b ∈ buildBundles rows)
    {f : String × String} (hf : f ∈ b.2) : ∃ e ∈ rows, e.2.1 = f.1 := by
  have := foldl_bundleStep_paths (fun x => ∃ e ∈ rows, e.2.1 = x) rows []
    (by intro b hb; cases hb) (fun e he => ⟨e, he, rfl⟩) b hb f hf
  exact this

lemma mem_insertByPriority {x y : String × String} :
    ∀ {l : List (String × String)}, x ∈ insertByPriority y l → x = y ∨ x ∈ l := by
  intro l
  induction l with
  | nil =>
    intro h
    exact Or.inl (by simpa [insertByPriority] using h)
  | cons a l ih =>
    intro h
    unfold insertByPriority at h
    by_cases hc : typePriority a.2 ≤ typePriority y.2
    · rw [if_pos hc] at h
      rcases List.mem_cons.1 h with rfl | h'
      · exact Or.inr (List.mem_cons_self _ _)
      · rcases ih h' with h | h
        · exact Or.inl h
        · exact Or.inr (List.mem_cons_of_mem _ h)
    · rw [if_neg hc] at h
      rcases List.mem_cons.1 h with rfl | h'
      · exact Or.inl rfl
      · exact Or.inr h'

lemma mem_sortByPriority {files : List (String × String)} {x : String × String}
    (h : x ∈ sortByPriority files) : x ∈ files := by
  unfold sortByPriority at h
  suffices key : ∀ (l acc : List (String × String)),
      x ∈ l.foldl (fun acc f => insertByPriority f acc) acc → x ∈ acc ∨ x ∈ l by
    rcases key files [] h with h | h
    · cases h
    · exact h
  intro l
  induction l with
  | nil => exact fun acc h => Or.inl h
  | cons a l ih =>
    intro acc h
    rw [List.foldl_cons] at h
    rcases ih _ h with h | h
    · rcases mem_insertByPriority h with h | h
      · exact Or.inr (h ▸ List.mem_cons_self _ _)
      · exact Or.inl h
    · exact Or.inr (List.mem_cons_of_mem _ h)

lemma qbStep_lookupPath_ne (menv : MergeEnv) (reason : String) (st : DbState × Fs)
    {f : String × String} {p : String} (hne : ¬ f.1 = p) :
    lookupPath (qbStep menv reason st f).1 p = lookupPath st.1 p := by
  unfold qbStep
  split
  · split
    · exact lookupPath_updateStatus_ne hne _ _ _ _ _
    · rfl
  · rfl

lemma qbStep_paths (menv : MergeEnv) (reason : String) (st : DbState × Fs)
    (f : String × String) :
    (qbStep menv reason st f).1.files.map (fun r => r.path) =
      st.1.files.map (fun r => r.path) := by
  unfold qbStep
  split
  · split
    · exact paths_updateStatus _ _ _ _ _ _
    · rfl
  · rfl

lemma quarantineBundle_lookupPath (menv : MergeEnv) (reason : String) (p : String) :
    ∀ (files : List (String × String)) (st : DbState × Fs),
      (∀ f ∈ files, ¬ f.1 = p) →
      lookupPath (quarantineBundle menv st reason files).1 p = lookupPath st.1 p := by
  intro files
  induction files with
  | nil => exact fun st _ => rfl
  | cons f l ih =>
    intro st hl
    unfold quarantineBundle
    rw [List.foldl_cons]
    have step := ih (qbStep menv reason st f) (fun g hg => hl g (List.mem_cons_of_mem _ hg))
    unfold quarantineBundle at step
    rw [step, qbStep_lookupPath_ne menv reason st (hl f (List.mem_cons_self _ _))]

lemma quarantineBundle_paths (menv : MergeEnv) (reason : String) :
    ∀ (files : List (String × String)) (st : DbState × Fs),
      (quarantineBundle menv st reason files).1.files.map (fun r => r.path) =
        st.1.files.map (fun r => r.path) := by
  intro files
  induction files with
  | nil => exact fun st => rfl
  | cons f l ih =>
    intro st
    unfold quarantineBundle
    rw [List.foldl_cons]
    have step := ih (qbStep menv reason st f)
    unfold quarantineBundle at step
    rw [step, qbStep_paths]

lemma mergeFilesLoop_lookupPath (menv : MergeEnv) (fs : Fs) (p : String) :
    ∀ (l : List (String × String)) (db : DbState) (used : List String),
      (∀ f ∈ l, ¬ f.1 = p) →
      lookupPath (mergeFilesLoop menv db fs l used).1 p = lookupPath db p := by
  intro l
  induction l with
  | nil => exact fun db used _ => rfl
  | cons f l ih =>
    intro db used hl
    have hne := hl f (List.mem_cons_self _ _)
    have htail : ∀ g ∈ l, ¬ g.1 = p := fun g hg => hl g (List.mem_cons_of_mem _ hg)
    unfold mergeFilesLoop
    dsimp only
    split
    · exact ih _ _ htail
    · split
      · split
        · split
          · split
            · rfl
            · exact ih _ _ htail
          · rw [ih _ _ htail, lookupPath_updateStatus_ne hne]
        · rw [ih _ _ htail, lookupPath_updateStatus_ne hne]
      · split
        · rfl
        · exact ih _ _ htail

lemma mergeFilesLoop_paths (menv : MergeEnv) (fs : Fs) :
    ∀ (l : List (String × String)) (db : DbState) (used : List String),
      (mergeFilesLoop menv db fs l used).1.files.map (fun r => r.path) =
        db.files.map (fun r => r.path) := by
  intro l
  induction l with
  | nil => exact fun db used => rfl
  | cons f l ih =>
    intro db used
    unfold mergeFilesLoop
    dsimp only
    split
    · exact ih _ _
    · split
      · split
        · split
          · split
            · rfl
            · exact ih _ _
          · rw [ih _ _, paths_updateStatus]
        · rw [ih _ _, paths_updateStatus]
      · split
        · rfl
        · exact ih _ _

lemma mergeFilesLoop_used (menv : MergeEnv) (fs : Fs) :
    ∀ (l : List (String × String)) (db : DbState) (used : List String),
      ∀ u ∈ (mergeFilesLoop menv db fs l used).2.1,
        u ∈ used ∨ ∃ f ∈ l, f.1 = u := by
  intro l
  induction l with
  | nil =>
    intro db used u hu
    exact Or.inl hu
  | cons f l ih =>
    intro db used u hu
    have lift : ∀ {used' : List String},
        (u ∈ used' ∨ ∃ g ∈ l, g.1 = u) →
        (u ∈ used' ∨ ∃ g ∈ f :: l, g.1 = u) := by
      intro used' h
      rcases h with h | ⟨g, hg, hgu⟩
      · exact Or.inl h
      · exact Or.inr ⟨g, List.mem_cons_of_mem _ hg, hgu⟩
    have push : (u ∈ used ++ [f.1] ∨ ∃ g ∈ l, g.1 = u) →
        (u ∈ used ∨ ∃ g ∈ f :: l, g.1 = u) := by
      intro h
      rcases h with h | ⟨g, hg, hgu⟩
      · rcases List.mem_append.1 h with h | h
        · exact Or.inl h
        · exact Or.inr ⟨f, List.mem_cons_self _ _, (by simpa using h : u = f.1).symm⟩
      · exact Or.inr ⟨g, List.mem_cons_of_mem _ hg, hgu⟩
    unfold mergeFilesLoop at hu
    dsimp only at hu
    revert hu
    split
    · intro hu; exact lift (ih _ _ u hu)
    · split
      · split
        · split
          · split
            · intro hu; exact Or.inl hu
            · intro hu; exact push (ih _ _ u hu)
          · intro hu; exact lift (ih _ _ u hu)
        · intro hu; exact lift (ih _ _ u hu)
      · split
        · intro hu; exact Or.inl hu
        · intro hu; exact push (ih _ _ u hu)

lemma foldl_merged_lookupPath (p : String) :
    ∀ (used : List String) (db : DbState),
      (∀ u ∈ used, ¬ u = p) →
      lookupPath (used.foldl (fun d q => updateStatus d q "MERGED" none none none) db) p =
        lookupPath db p := by
  intro used
  induction used with
  | nil => exact fun db _ => rfl
  | cons u l ih =>
    intro db hl
    rw [List.foldl_cons, ih _ (fun v hv => hl v (List.mem_cons_of_mem _ hv)),
      lookupPath_updateStatus_ne (hl u (List.mem_cons_self _ _))]

lemma foldl_merged_paths :
    ∀ (used : List String) (db : DbState),
      (used.foldl (fun d q => updateStatus d q "MERGED" none none none) db).files.map
        (fun r => r.path) = db.files.map (fun r => r.path) := by
  intro used
  induction used with
  | nil => exact fun db => rfl
  | cons u l ih =>
    intro db
    rw [List.foldl_cons, ih, paths_updateStatus]

lemma mergeBundle_lookupPath (menv : MergeEnv) (st : DbState × Fs)
    {b : String × List (String × String)} {p : String}
    (hb : ∀ f ∈ b.2, ¬ f.1 = p) :
    lookupPath (mergeBundle menv st b).1 p = lookupPath st.1 p := by
  have hsorted : ∀ f ∈ sortByPriority b.2, ¬ f.1 = p :=
    fun f hf => hb f (mem_sortByPriority hf)
  have hused : ∀ u ∈ (mergeFilesLoop menv st.1 st.2 (sortByPriority b.2) []).2.1,
      ¬ u = p := by
    intro u hu
    rcases mergeFilesLoop_used menv st.2 (sortByPriority b.2) st.1 [] u hu with h | ⟨f, hf, hfu⟩
    · cases h
    · rw [← hfu]
      exact hsorted f hf
  unfold mergeBundle
  dsimp only
  split
  · rfl
  · split
    · rfl
    · split
      · exact quarantineBundle_lookupPath menv _ p _ st hsorted
      · split
        · rfl
        · split
          · rfl
          · split
            · rfl
            · split
              · exact mergeFilesLoop_lookupPath menv st.2 p _ st.1 [] hsorted
              · split
                · exact mergeFilesLoop_lookupPath menv st.2 p _ st.1 [] hsorted
                · split
                  · rw [foldl_merged_lookupPath p _ _ hused]
                    exact mergeFilesLoop_lookupPath menv st.2 p _ st.1 [] hsorted
                  · exact mergeFilesLoop_lookupPath menv st.2 p _ st.1 [] hsorted

lemma mergeBundle_paths (menv : MergeEnv) (st : DbState × Fs)
    (b : String × List (String × String)) :
    (mergeBundle menv st b).1.files.map (fun r => r.path) =
      st.1.files.map (fun r => r.path) := by
  unfold mergeBundle
  dsimp only
  split
  · rfl
  · split
    · rfl
    · split
      · exact quarantineBundle_paths menv _ _ st
      · split
        · rfl
        · split
          · rfl
          · split
            · rfl
            · split
              · exact mergeFilesLoop_paths menv st.2 _ st.1 []
              · split
                · exact mergeFilesLoop_paths menv st.2 _ st.1 []
                · split
                  · rw [foldl_merged_paths]
                    exact mergeFilesLoop_paths menv st.2 _ st.1 []
                  · exact mergeFilesLoop_paths menv st.2 _ st.1 []

lemma foldl_mergeBundle_lookupPath (menv : MergeEnv) (p : String) (r : FileRec) :
    ∀ (bl : List (String × List (String × String))) (st : DbState × Fs),
      (∀ b ∈ bl, ∀ f ∈ b.2, ¬ f.1 = p) → lookupPath st.1 p = some r →
      lookupPath ((bl.foldl (mergeBundle menv) st)).1 p = some r := by
  intro bl
  induction bl with
  | nil => exact fun st _ hr => hr
  | cons b bl ih =>
    intro st hbl hr
    rw [List.foldl_cons]
    refine ih _ (fun b' hb' => hbl b' (List.mem_cons_of_mem _ hb')) ?_
    rw [mergeBundle_lookupPath menv st (hbl b (List.mem_cons_self _ _))]
    exact hr

lemma foldl_mergeBundle_paths (menv : MergeEnv) :
    ∀ (bl : List (String × List (String × String))) (st : DbState × Fs),
      ((bl.foldl (mergeBundle menv) st)).1.files.map (fun r => r.path) =
        st.1.files.map (fun r => r.path) := by
  intro bl
  induction bl with
  | nil => exact fun st => rfl
  | cons b bl ih =>
    intro st
    rw [List.foldl_cons, ih, mergeBundle_paths]

lemma mergeStep_lookupPath {st : DbState × Fs} {p : String} {r : FileRec}
    (menv : MergeEnv) (hnd : pathsNodup st.1) (hr : lookupPath st.1 p = some r)
    (ht : isTerminalStatus r.status) :
    lookupPath (mergeStep menv st).1 p = some r := by
  unfold mergeStep
  refine foldl_mergeBundle_lookupPath menv p r _ st ?_ hr
  intro b hb f hf hfp
  obtain ⟨e, he, hep⟩ := buildBundles_paths hb hf
  obtain ⟨rec, hrec, hrecp, hrecs⟩ := mem_mergeableRows he
  rw [hep, hfp] at hrecp
  have := lookupPath_unique hnd hr hrec hrecp
  subst this
  rcases ht with h | h | h <;> (rw [h] at hrecs; exact absurd hrecs (by decide))

lemma mergeStep_nodup {st : DbState × Fs} (menv : MergeEnv)
    (hnd : pathsNodup st.1) : pathsNodup (mergeStep menv st).1 := by
  unfold mergeStep pathsNodup
  rw [foldl_mergeBundle_paths]
  exact hnd

/-! ### Claim C8: the invariant over arbitrary pipeline runs -/

lemma runStep_lookupPath {st : DbState × Fs} {p : String} {r : FileRec}
    (s : PipeStep) (hnd : pathsNodup st.1) (hr : lookupPath st.1 p = some r)
    (ht : isTerminalStatus r.status) :
    lookupPath (runStep s st).1 p = some r := by
  cases s with
  | scan env =>
    unfold runStep scanStep
    exact foldl_scanOne_lookupPath env p r _ st hr
  | process env => exact processStep_lookupPath env hnd hr ht
  | merge env => exact mergeStep_lookupPath env hnd hr ht

lemma runStep_nodup (s : PipeStep) (st : DbState × Fs)
    (hnd : pathsNodup st.1) : pathsNodup (runStep s st).1 := by
  cases s with
  | scan env =>
    unfold runStep scanStep
    exact foldl_scanOne_nodup env _ st hnd
  | process env => exact processStep_nodup env hnd
  | merge env => exact mergeStep_nodup env hnd

lemma runSteps_cons (s : PipeStep) (steps : List PipeStep) (st : DbState × Fs) :
    runSteps (s :: steps) st = runSteps steps (runStep s st) := rfl

/-- C8: under every sequence of pipeline operations with arbitrary oracle
inputs, a record whose status is `MERGED`, `ARCHIVED` or `QUARANTINED` is never
touched again (in particular it never returns to `PENDING`), and its path never
re-enters the pending/failed retry queue — given the `file_path UNIQUE`
constraint of the files table. -/
theorem C8_terminal_never_pending (steps : List PipeStep) (st : DbState × Fs)
    (p : String) (r : FileRec)
    (hnd : pathsNodup st.1) (hr : lookupPath st.1 p = some r)
    (ht : isTerminalStatus r.status) :
    lookupPath (runSteps steps st).1 p = some r ∧
    ∀ x ∈ getPendingFiles (runSteps steps st).1, ¬ x.1 = p := by
  have main : ∀ (ss : List PipeStep) (s0 : DbState × Fs), pathsNodup s0.1 →
      lookupPath s0.1 p = some r →
      pathsNodup (runSteps ss s0).1 ∧ lookupPath (runSteps ss s0).1 p = some r := by
    intro ss
    induction ss with
    | nil => exact fun s0 h1 h2 => ⟨h1, h2⟩
    | cons s ss ih =>
      intro s0 h1 h2
      rw [runSteps_cons]
      exact ih _ (runStep_nodup s s0 h1) (runStep_lookupPath s h1 h2 ht)
  obtain ⟨hnd', hr'⟩ := main steps st hnd hr
  refine ⟨hr', ?_⟩
  intro x hx hxp
  obtain ⟨rec, hrec, hrecp, hrecs⟩ := mem_getPendingFiles hx
  rw [hxp] at hrecp
  have := lookupPath_unique hnd' hr' hrec hrecp
  subst this
  rcases ht with h | h | h <;> rcases hrecs with h2 | h2 <;>
    (rw [h] at h2; exact absurd h2 (by decide))

/-- C8 witness: the `MERGED` record survives a concrete full pipeline pass
unchanged. -/
theorem C8_terminal_never_pending_witness :
    pathsNodup c8Db ∧
    lookupPath c8Db "Sales_invoice/SI_m.pdf" = some c8Rec ∧
    isTerminalStatus c8Rec.status ∧
    lookupPath (runSteps c8Steps (c8Db, c8Fs)).1 "Sales_invoice/SI_m.pdf" = some c8Rec :=
  ⟨by unfold pathsNodup; decide, by decide, Or.inl (by decide),
    (C8_terminal_never_pending c8Steps (c8Db, c8Fs) "Sales_invoice/SI_m.pdf" c8Rec
      (by unfold pathsNodup; decide) (by decide) (Or.inl (by decide))).1⟩

end PdfMerger
